import Mathlib

/-!
# Verification of the `input_player` frontend control logic

A shallow embedding of the TypeScript control layer of `input_player`
(`src/App.tsx`, `src/SequenceEditor.tsx`, `src/SequenceSelector.tsx`,
`src/ButtonMappingEditor.tsx`, `src/types.ts`) together with proofs about
chain flattening, chain-segment resolution, the manual-input arbiter,
invert-flag capture, sequence-editor guards, and CSV compatibility checking.

Conventions of the embedding:
* JavaScript arrays become `List`, `number` indices become `Nat`.
* `Record<string, number>` button maps become association lists
  `List (String × Nat)` (insertion order preserved, as in JS objects).
* A JS `Set<number>` becomes a `Finset Nat` (`size` = `Finset.card`,
  `has` = membership).
* Nullable values (`T | null`) become `Option`.
* React state handlers are modelled as pure functions from the state they
  read to the state they write and/or the backend commands they issue;
  display-only state (highlight rows, log messages) is omitted.
-/

/-- The `InputFrame` record from `src/types.ts`: one discrete input record.
`duration` counts engine ticks, `direction` is numpad-style (5 = neutral),
`buttons` maps button names to 0/1, the analog fields are optional. -/
structure InputFrame where
  duration : Nat
  direction : Nat
  buttons : List (String × Nat)
  thumb_lx : Option Int := none
  thumb_ly : Option Int := none
  thumb_rx : Option Int := none
  thumb_ry : Option Int := none
  left_trigger : Option Nat := none
  right_trigger : Option Nat := none
deriving DecidableEq

/-- The `SequenceSlot` record from `src/types.ts` / `App.tsx`: a loaded CSV sequence
(`path`, its parsed frames, and the compatibility flag computed by the
sequence selector). -/
structure SequenceSlot where
  path : String
  frames : List InputFrame
  compatible : Bool
deriving DecidableEq

/-- Total tick length of a frame list: the sum of per-frame durations
(`slot.frames.reduce((sum, f) => sum + f.duration, 0)` in `App.tsx`). -/
def totalDuration (frames : List InputFrame) : Nat :=
  (frames.map (fun f => f.duration)).sum

/-- One iteration of the `for` loop in `buildCombinedSequence`
(`App.tsx` lines 396-408).  The accumulator is
`(combinedFrames, stepMap, currentStepPosition)`.  A chain entry whose slot
is missing (`!slot`) or incompatible (`!slot.compatible`) is skipped;
otherwise the current step position is pushed onto the step map, the slot's
frames are appended, and the position advances by `slot.frames.length`. -/
def chainStep (sequenceSlots : List (Option SequenceSlot))
    (acc : List InputFrame × List Nat × Nat) (slotIndex : Nat) :
    List InputFrame × List Nat × Nat :=
  match sequenceSlots.getD slotIndex none with
  | none => acc
  | some slot =>
    if slot.compatible then
      (acc.1 ++ slot.frames, acc.2.1 ++ [acc.2.2], acc.2.2 + slot.frames.length)
    else acc

/-- Function `buildCombinedSequence` (`App.tsx` lines 386-415): flattens the chain
`sequenceChain` (a list of slot indices, repeats allowed) over
`sequenceSlots` into a combined frame list plus a step map.  Returns `none`
when the chain is empty or no frames were produced. -/
def buildCombinedSequence (sequenceChain : List Nat)
    (sequenceSlots : List (Option SequenceSlot)) :
    Option (List InputFrame × List Nat) :=
  if sequenceChain.isEmpty then none
  else
    let r := sequenceChain.foldl (chainStep sequenceSlots) ([], [], 0)
    if r.1.isEmpty then none else some (r.1, r.2.1)

/-- The slots actually included by `buildCombinedSequence`: chain entries
whose slot exists and is marked compatible, in chain order.  (Derived
bookkeeping used to state theorems; it mirrors the loop's skip test.) -/
def includedSlots (sequenceChain : List Nat)
    (sequenceSlots : List (Option SequenceSlot)) : List SequenceSlot :=
  sequenceChain.filterMap fun i =>
    match sequenceSlots.getD i none with
    | none => none
    | some slot => if slot.compatible then some slot else none

/-- Prefix sums of a list of segment lengths: `stepOffsets [a, b, c] =
[0, a, a + b]`.  This is the shape of the step map the flattening loop
builds. -/
def stepOffsets : List Nat → List Nat
  | [] => []
  | a :: l => 0 :: (stepOffsets l).map (fun x => a + x)

/-- The downward search loop of the chain-index `useEffect`
(`App.tsx` lines 493-511): starting from `i = stepMap.length - 1` and
counting down, return the first `i` with `stepMap[i] <= t`; if none is
found the index stays at its initialisation value `0`. -/
def resolveLoop (t : Nat) (stepMap : List Nat) : Nat → Nat
  | 0 => 0
  | i + 1 => if stepMap.getD i 0 ≤ t then i else resolveLoop t stepMap i

/-- Resolution of `resolve_active_segment`: the chain segment highlighted for tick `t`
given the step map (`App.tsx` lines 493-511). -/
def resolveActiveSegment (t : Nat) (stepMap : List Nat) : Nat :=
  resolveLoop t stepMap stepMap.length

/-- The manual-input state read (through refs) by the arbiter interval in
`App.tsx`: requested POV direction, the primary active button (`1..12`),
and the mapping-editor test button (an Xbox button name). -/
structure ManualInputState where
  povDirection : Nat
  activeButton : Option Nat
  activeTestButton : Option String
deriving DecidableEq

/-- The button snapshot built inside the manual-input interval
(`App.tsx` lines 151-159): the primary button wins; otherwise the test
button; otherwise no button is pressed. -/
def buildManualButtons (activeButton : Option Nat)
    (activeTestButton : Option String) : List (String × Nat) :=
  match activeButton with
  | some n => [("button" ++ toString n, 1)]
  | none =>
    match activeTestButton with
    | some name => [(name, 1)]
    | none => []

/-- The `setInterval` period of the manual-input arbiter in milliseconds
(`App.tsx` line 165). -/
def manualInputCadenceMs : Nat := 10

/-- One cycle of the manual-input arbiter (`App.tsx` lines 140-169): the
interval exists only while `isConnected && !isPlaying`, and each firing
sends `updateManualInput(direction, buttons)` built from the latest state;
otherwise nothing is sent to the virtual device. -/
def manualInputCycle (isConnected isPlaying : Bool) (s : ManualInputState) :
    Option (Nat × List (String × Nat)) :=
  if isConnected && !isPlaying then
    some (s.povDirection, buildManualButtons s.activeButton s.activeTestButton)
  else none

/-- Handler `onMouseDown` of a primary button (`App.tsx` line 645). -/
def pressMainButton (s : ManualInputState) (btn : Nat) : ManualInputState :=
  { s with activeButton := some btn }

/-- Handlers `onMouseUp` / `onMouseLeave` of a primary button (`App.tsx` 646-647). -/
def releaseMainButton (s : ManualInputState) : ManualInputState :=
  { s with activeButton := none }

/-- Handler `handleTestButtonPress` (`ButtonMappingEditor.tsx` lines 188-191):
guarded by the connection flag; sets the test button name. -/
def pressTestButton (isConnected : Bool) (s : ManualInputState)
    (xboxButton : String) : ManualInputState :=
  if isConnected then { s with activeTestButton := some xboxButton } else s

/-- Handler `handleTestButtonRelease` (`ButtonMappingEditor.tsx` lines 193-195). -/
def releaseTestButton (s : ManualInputState) : ManualInputState :=
  { s with activeTestButton := none }

/-- Backend commands issued through `api.ts` that matter for playback. -/
inductive EngineCommand where
  | loadInputSequence (frames : List InputFrame)
  | setInvertHorizontal (invert : Bool)
  | setLoopPlayback (loopFlag : Bool)
  | startPlayback
  | stopPlayback
deriving DecidableEq

/-- Handler `handleInvertToggle` (`App.tsx` lines 191-195): records the checkbox
value in frontend state and issues no backend command at all ("saved only
for the next playback; changing it during playback does not affect the
current run", per the source comment). -/
def handleInvertToggle (checked : Bool) : Bool × List EngineCommand :=
  (checked, [])

/-- The backend command trace of `playSequence` (`App.tsx` lines 278-306):
nothing for a missing or incompatible slot; otherwise load the slot's
frames, transmit the current invert and loop flags, then start playback. -/
def playSequenceCommands (slot : Option SequenceSlot)
    (invertHorizontal loopPlayback : Bool) : List EngineCommand :=
  match slot with
  | none => []
  | some s =>
    if s.compatible then
      [EngineCommand.loadInputSequence s.frames,
       EngineCommand.setInvertHorizontal invertHorizontal,
       EngineCommand.setLoopPlayback loopPlayback,
       EngineCommand.startPlayback]
    else []

/-- The backend command trace of `playChain` (`App.tsx` lines 417-449):
nothing when `buildCombinedSequence` yields nothing; otherwise load the
combined frames, transmit the current invert and loop flags, then start
playback. -/
def playChainCommands (sequenceChain : List Nat)
    (sequenceSlots : List (Option SequenceSlot))
    (invertHorizontal loopPlayback : Bool) : List EngineCommand :=
  match buildCombinedSequence sequenceChain sequenceSlots with
  | none => []
  | some (fs, _) =>
    [EngineCommand.loadInputSequence fs,
     EngineCommand.setInvertHorizontal invertHorizontal,
     EngineCommand.setLoopPlayback loopPlayback,
     EngineCommand.startPlayback]

/-- The index filter of `deleteSelected` (`SequenceEditor.tsx` line 178):
`frames.filter((_, i) => !selectedRows.has(i))`, written as a recursion on
the list carrying the current index. -/
def removeSelected (selectedRows : Finset Nat) :
    Nat → List InputFrame → List InputFrame
  | _, [] => []
  | i, f :: rest =>
    if i ∈ selectedRows then removeSelected selectedRows (i + 1) rest
    else f :: removeSelected selectedRows (i + 1) rest

/-- Operation `deleteSelected` (`SequenceEditor.tsx` lines 162-201), restricted to
its effect on the frame list: rejected while playing, with an empty
selection, or when fewer than one row would remain
(`frames.length - selectedRows.size < 1`); otherwise the selected indices
are filtered out. -/
def deleteSelected (isPlaying : Bool) (frames : List InputFrame)
    (selectedRows : Finset Nat) : List InputFrame :=
  if isPlaying then frames
  else if selectedRows.card = 0 then frames
  else if frames.length - selectedRows.card < 1 then frames
  else removeSelected selectedRows 0 frames

/-- Operation `addRow` (`SequenceEditor.tsx` lines 137-160), restricted to its effect
on the frame list: rejected while playing; otherwise a neutral one-tick
frame over the sequence buttons is spliced in after `afterIndex` (or at the
end).  JS `splice` clamps the insertion position to the array length. -/
def addRow (isPlaying : Bool) (frames : List InputFrame)
    (afterIndex : Option Nat) (sequenceButtons : List String) :
    List InputFrame :=
  if isPlaying then frames
  else
    let newFrame : InputFrame :=
      { duration := 1, direction := 5,
        buttons := sequenceButtons.map (fun b => (b, 0)) }
    let insertIndex :=
      match afterIndex with
      | some i => i + 1
      | none => frames.length
    frames.insertIdx (min insertIndex frames.length) newFrame

/-- What `handleSave` (`SequenceEditor.tsx` lines 203-224) does with the
frame data. -/
inductive SaveAction where
  | rejected
  | saveAsDialog
  | overwrite (path : String) (frames : List InputFrame)
deriving DecidableEq

/-- Operation `handleSave`: rejected while playing; a freshly created temporary
sequence is routed to the save-as dialog; otherwise the frames overwrite
the original file. -/
def handleSave (isPlaying : Bool) (csvPath : String)
    (frames : List InputFrame) : SaveAction :=
  if isPlaying then SaveAction.rejected
  else if csvPath.startsWith "temp_new_sequence_" then SaveAction.saveAsDialog
  else SaveAction.overwrite csvPath frames

/-- The compatibility predicate of the CSV branch of the sequence selector
(`SequenceSelector.tsx`, unnamed part lines 158-190): the CSV's button
columns are filtered against the available (sequence) buttons, and the
file is compatible iff no column is unmapped **and** there is at least one
button column. -/
def checkCsvCompatibility (csvButtons availableButtons : List String) : Bool :=
  let unmappedButtons :=
    csvButtons.filter (fun b => !(availableButtons.contains b))
  (unmappedButtons.length == 0) && decide (0 < csvButtons.length)

/-- The compatibility predicate applied to an MP4-generated CSV
(`SequenceSelector.tsx`, unnamed part lines 126-148); textually the same
test as the CSV branch. -/
def checkGeneratedCsvCompatibility (csvButtons availableButtons : List String) :
    Bool :=
  let unmappedButtons :=
    csvButtons.filter (fun b => !(availableButtons.contains b))
  (unmappedButtons.length == 0) && decide (0 < csvButtons.length)

/-! ## Helper lemmas about chain flattening -/

theorem stepOffsets_length (l : List Nat) :
    (stepOffsets l).length = l.length := by
  induction l with
  | nil => rfl
  | cons a t ih => simp [stepOffsets, ih]

theorem chainStep_foldl_spec (sequenceSlots : List (Option SequenceSlot)) :
    ∀ (chain : List Nat) (fs : List InputFrame) (sm : List Nat) (p : Nat),
      chain.foldl (chainStep sequenceSlots) (fs, sm, p) =
        (fs ++ ((includedSlots chain sequenceSlots).map (fun s => s.frames)).flatten,
         sm ++ (stepOffsets ((includedSlots chain sequenceSlots).map
                  (fun s => s.frames.length))).map (fun x => p + x),
         p + ((includedSlots chain sequenceSlots).map
                  (fun s => s.frames.length)).sum) := by
  intro chain
  induction chain with
  | nil => intro fs sm p; simp [includedSlots, stepOffsets]
  | cons i rest ih =>
    intro fs sm p
    rw [List.foldl_cons]
    rcases h : sequenceSlots.getD i none with _ | slot
    · have hstep : chainStep sequenceSlots (fs, sm, p) i = (fs, sm, p) := by
        unfold chainStep; rw [h]
      rw [hstep, ih]
      have hinc : includedSlots (i :: rest) sequenceSlots =
          includedSlots rest sequenceSlots := by
        unfold includedSlots; rw [List.filterMap_cons, h]
      rw [hinc]
    · by_cases hc : slot.compatible
      · have hstep : chainStep sequenceSlots (fs, sm, p) i =
            (fs ++ slot.frames, sm ++ [p], p + slot.frames.length) := by
          unfold chainStep; rw [h]; simp [hc]
        rw [hstep, ih]
        have hinc : includedSlots (i :: rest) sequenceSlots =
            slot :: includedSlots rest sequenceSlots := by
          unfold includedSlots; rw [List.filterMap_cons, h]; simp [hc]
        rw [hinc]
        simp [stepOffsets, List.map_map, Function.comp, Nat.add_assoc]
      · have hstep : chainStep sequenceSlots (fs, sm, p) i = (fs, sm, p) := by
          unfold chainStep; rw [h]; simp [hc]
        rw [hstep, ih]
        have hinc : includedSlots (i :: rest) sequenceSlots =
            includedSlots rest sequenceSlots := by
          unfold includedSlots; rw [List.filterMap_cons, h]; simp [hc]
        rw [hinc]

theorem buildCombinedSequence_some (chain : List Nat)
    (slots : List (Option SequenceSlot)) (fs : List InputFrame) (sm : List Nat)
    (h : buildCombinedSequence chain slots = some (fs, sm)) :
    fs = ((includedSlots chain slots).map (fun s => s.frames)).flatten ∧
    sm = stepOffsets ((includedSlots chain slots).map (fun s => s.frames.length)) ∧
    fs ≠ [] := by
  have hfold := chainStep_foldl_spec slots chain [] [] 0
  simp only [List.nil_append, Nat.zero_add, List.map_id'] at hfold
  unfold buildCombinedSequence at h
  rw [hfold] at h
  simp only [] at h
  split at h
  · exact absurd h (by simp)
  · split at h
    · exact absurd h (by simp)
    · rename_i hne
      rw [Option.some_inj] at h
      injection h with h1 h2
      refine ⟨h1.symm, h2.symm, ?_⟩
      rw [← h1]
      simpa using hne

theorem stepOffsets_getD (l : List Nat) :
    ∀ i, i < l.length → (stepOffsets l).getD i 0 = (l.take i).sum := by
  induction l with
  | nil => intro i hi; simp at hi
  | cons a t ih =>
    intro i hi
    cases i with
    | zero => simp [stepOffsets]
    | succ j =>
      have hj : j < t.length := by simpa using hi
      have hjlen : j < (stepOffsets t).length := by rwa [stepOffsets_length]
      calc (stepOffsets (a :: t)).getD (j + 1) 0
          = ((stepOffsets t).map (fun x => a + x)).getD j 0 := by
            simp [stepOffsets]
        _ = a + (stepOffsets t).getD j 0 := by
            rw [List.getD_eq_getElem _ _ (by simpa using hjlen),
                List.getD_eq_getElem _ _ hjlen]
            simp
        _ = a + (t.take j).sum := by rw [ih j hj]
        _ = ((a :: t).take (j + 1)).sum := by simp

theorem stepOffsets_getD_zero (l : List Nat) : (stepOffsets l).getD 0 0 = 0 := by
  cases l <;> simp [stepOffsets]

theorem stepOffsets_pairwise_le (l : List Nat) :
    (stepOffsets l).Pairwise (· ≤ ·) := by
  induction l with
  | nil => simp [stepOffsets]
  | cons a t ih =>
    refine List.Pairwise.cons ?_ (ih.map _ ?_)
    · intro x hx
      simp only [List.mem_map] at hx
      obtain ⟨y, _, rfl⟩ := hx
      exact Nat.zero_le _
    · intro x y hxy
      exact Nat.add_le_add_left hxy a

theorem stepOffsets_pairwise_lt (l : List Nat) (hpos : ∀ x ∈ l, 0 < x) :
    (stepOffsets l).Pairwise (· < ·) := by
  induction l with
  | nil => simp [stepOffsets]
  | cons a t ih =>
    have ha : 0 < a := hpos a (List.mem_cons_self a t)
    refine List.Pairwise.cons ?_ ((ih ?_).map _ ?_)
    · intro x hx
      simp only [List.mem_map] at hx
      obtain ⟨y, _, rfl⟩ := hx
      exact Nat.lt_of_lt_of_le ha (Nat.le_add_right a y)
    · intro x hx
      exact hpos x (List.mem_cons_of_mem a hx)
    · intro x y hxy
      exact Nat.add_lt_add_left hxy a

/-! ## Helper lemmas about segment resolution -/

theorem resolveLoop_spec (t : Nat) (sm : List Nat) :
    ∀ n, sm.getD 0 0 ≤ t → 0 < n →
      resolveLoop t sm n < n ∧
      sm.getD (resolveLoop t sm n) 0 ≤ t ∧
      ∀ j, j < n → sm.getD j 0 ≤ t → j ≤ resolveLoop t sm n := by
  intro n
  induction n with
  | zero => intro _ h0; exact absurd h0 (Nat.lt_irrefl 0)
  | succ m ih =>
    intro h0 _
    by_cases hm : sm.getD m 0 ≤ t
    · refine ⟨?_, ?_, ?_⟩ <;> simp only [resolveLoop, if_pos hm]
      · exact Nat.lt_succ_self m
      · exact hm
      · intro j hj _
        exact Nat.lt_succ_iff.mp hj
    · have hmpos : 0 < m := by
        rcases Nat.eq_zero_or_pos m with h | h
        · subst h; exact absurd h0 hm
        · exact h
      obtain ⟨ih1, ih2, ih3⟩ := ih h0 hmpos
      refine ⟨?_, ?_, ?_⟩ <;> simp only [resolveLoop, if_neg hm]
      · exact Nat.lt_succ_of_lt ih1
      · exact ih2
      · intro j hj hjle
        rcases Nat.lt_succ_iff_lt_or_eq.mp hj with h | h
        · exact ih3 j h hjle
        · subst h; exact absurd hjle hm

/-! ## Helper lemmas about the sequence editor -/

theorem removeSelected_length (sel : Finset Nat) :
    ∀ (l : List InputFrame) (i : Nat),
      l.length - (sel.filter (fun x => i ≤ x)).card ≤
        (removeSelected sel i l).length := by
  intro l
  induction l with
  | nil => intro i; simp
  | cons f rest ih =>
    intro i
    by_cases hi : i ∈ sel
    · have hsub : insert i (sel.filter (fun x => i + 1 ≤ x)) ⊆
          sel.filter (fun x => i ≤ x) := by
        intro x hx
        rcases Finset.mem_insert.mp hx with rfl | hx
        · exact Finset.mem_filter.mpr ⟨hi, Nat.le_refl x⟩
        · obtain ⟨hx1, hx2⟩ := Finset.mem_filter.mp hx
          exact Finset.mem_filter.mpr ⟨hx1, Nat.le_of_succ_le hx2⟩
      have hnotmem : i ∉ sel.filter (fun x => i + 1 ≤ x) := by
        intro hmem
        exact absurd (Finset.mem_filter.mp hmem).2 (by omega)
      have hcard : (sel.filter (fun x => i + 1 ≤ x)).card + 1 ≤
          (sel.filter (fun x => i ≤ x)).card := by
        calc (sel.filter (fun x => i + 1 ≤ x)).card + 1
            = (insert i (sel.filter (fun x => i + 1 ≤ x))).card := by
              rw [Finset.card_insert_of_not_mem hnotmem]
          _ ≤ (sel.filter (fun x => i ≤ x)).card := Finset.card_le_card hsub
      have hrec := ih (i + 1)
      simp only [removeSelected, if_pos hi]
      simp only [List.length_cons]
      omega
    · have hsub : sel.filter (fun x => i + 1 ≤ x) ⊆ sel.filter (fun x => i ≤ x) := by
        intro x hx
        obtain ⟨hx1, hx2⟩ := Finset.mem_filter.mp hx
        exact Finset.mem_filter.mpr ⟨hx1, Nat.le_of_succ_le hx2⟩
      have hcard := Finset.card_le_card hsub
      have hrec := ih (i + 1)
      simp only [removeSelected, if_neg hi]
      simp only [List.length_cons]
      omega

theorem filter_zero_le (sel : Finset Nat) :
    sel.filter (fun x => 0 ≤ x) = sel := by
  apply Finset.filter_true_of_mem
  intro x _
  exact Nat.zero_le x

/-! ## Concrete fixtures used by counterexamples and witnesses -/

/-- A one-button frame with the given duration. -/
def mkFrame (d : Nat) : InputFrame :=
  { duration := d, direction := 5, buttons := [("a", 1)] }

/-- Three compatible slots of 3, 5 and 2 frames (each frame one tick). -/
def slotsABC : List (Option SequenceSlot) :=
  [some ⟨"A.csv", List.replicate 3 (mkFrame 1), true⟩,
   some ⟨"B.csv", List.replicate 5 (mkFrame 1), true⟩,
   some ⟨"C.csv", List.replicate 2 (mkFrame 1), true⟩]

/-- Two compatible slots whose first frame lasts 3 ticks: frame counts and
tick lengths disagree. -/
def slotsDur : List (Option SequenceSlot) :=
  [some ⟨"A.csv", [mkFrame 3], true⟩,
   some ⟨"B.csv", [mkFrame 1], true⟩]

/-- An empty-but-compatible slot followed by a one-frame compatible slot. -/
def slotsEmptyCompat : List (Option SequenceSlot) :=
  [some ⟨"E.csv", [], true⟩,
   some ⟨"C.csv", [mkFrame 1], true⟩]

/-- Compatible A (3 frames), incompatible B (5 frames), compatible C (2). -/
def slotsABincC : List (Option SequenceSlot) :=
  [some ⟨"A.csv", List.replicate 3 (mkFrame 1), true⟩,
   some ⟨"B.csv", List.replicate 5 (mkFrame 1), false⟩,
   some ⟨"C.csv", List.replicate 2 (mkFrame 1), true⟩]

/-- A neutral manual-input state. -/
def manualState0 : ManualInputState :=
  { povDirection := 5, activeButton := none, activeTestButton := none }

/-! ## Claims -/

/-- Claim C1, counterexample.  The claim reads the step map as tick offsets
(sums of per-frame durations of the preceding included segments).  With a
first segment consisting of one frame of duration 3, `buildCombinedSequence`
produces step map `[0, 1]` — it advances by `slot.frames.length` — whereas
the claimed tick-offset reading demands `[0, 3]`. -/
theorem C1_counterexample :
    (buildCombinedSequence [0, 1] slotsDur).map Prod.snd = some [0, 1] ∧
    totalDuration [mkFrame 3] = 3 ∧
    (buildCombinedSequence [0, 1] slotsDur).map Prod.snd ≠ some [0, 3] := by
  decide

/-- Claim C1 (amended): the i-th entry of the step map equals the number of
frames (not the summed tick durations) of all preceding included segments,
i.e. the index in the flattened frame list at which that segment's first
frame sits, and the flattened length is the total frame count; the two
readings coincide exactly when every frame lasts one tick. -/
theorem C1_step_map_counts_frames (chain : List Nat)
    (slots : List (Option SequenceSlot)) (fs : List InputFrame) (sm : List Nat)
    (h : buildCombinedSequence chain slots = some (fs, sm)) :
    fs.length = ((includedSlots chain slots).map (fun s => s.frames.length)).sum ∧
    ∀ i, i < sm.length →
      sm.getD i 0 =
        (((includedSlots chain slots).map (fun s => s.frames.length)).take i).sum := by
  obtain ⟨h1, h2, _⟩ := buildCombinedSequence_some chain slots fs sm h
  constructor
  · rw [h1]
    simp only [List.length_flatten, List.map_map]
    rfl
  · intro i hi
    rw [h2]
    apply stepOffsets_getD
    rw [h2, stepOffsets_length] at hi
    exact hi

/-- Claim C1, witness: three compatible one-tick-per-frame segments of 3, 5
and 2 frames flatten to 10 frames with step map `[0, 3, 8]`. -/
theorem C1_witness :
    (List.replicate 10 (mkFrame 1)).length =
      ((includedSlots [0, 1, 2] slotsABC).map (fun s => s.frames.length)).sum ∧
    ([0, 3, 8] : List Nat).getD 2 0 =
      (((includedSlots [0, 1, 2] slotsABC).map
        (fun s => s.frames.length)).take 2).sum := by
  have h := C1_step_map_counts_frames [0, 1, 2] slotsABC
    (List.replicate 10 (mkFrame 1)) [0, 3, 8] (by decide)
  exact ⟨h.1, h.2 2 (by decide)⟩

/-- Claim C2: for any tick `t` and any non-empty step map whose first entry
is at most `t` (every step map the app builds starts at 0), the chain-index
effect resolves the greatest index `i` with `stepMap[i] <= t`. -/
theorem C2_resolve_active_segment_greatest (t : Nat) (sm : List Nat)
    (hne : sm ≠ []) (h0 : sm.getD 0 0 ≤ t) :
    resolveActiveSegment t sm < sm.length ∧
    sm.getD (resolveActiveSegment t sm) 0 ≤ t ∧
    ∀ j, j < sm.length → sm.getD j 0 ≤ t → j ≤ resolveActiveSegment t sm := by
  have hlen : 0 < sm.length := List.length_pos.mpr hne
  simpa [resolveActiveSegment] using resolveLoop_spec t sm sm.length h0 hlen

/-- Claim C2, witness: with step map `[0, 3, 8]`, tick 4 resolves to
segment 1 and tick 9 to segment 2, and the resolved entry is `≤` the tick. -/
theorem C2_witness :
    resolveActiveSegment 4 [0, 3, 8] = 1 ∧
    resolveActiveSegment 9 [0, 3, 8] = 2 ∧
    ([0, 3, 8] : List Nat).getD (resolveActiveSegment 4 [0, 3, 8]) 0 ≤ 4 := by
  refine ⟨by decide, by decide, ?_⟩
  exact (C2_resolve_active_segment_greatest 4 [0, 3, 8] (by decide) (by decide)).2.1

/-- Claim C3, counterexample.  The claim says an empty selected segment is
skipped like an incompatible one, so that for one empty-compatible and one
non-empty-compatible segment the step map would have length 1.  The loop
only tests `!slot || !slot.compatible`: the empty compatible segment still
pushes a step-map entry, giving `[0, 0]` of length 2. -/
theorem C3_counterexample :
    buildCombinedSequence [0, 1] slotsEmptyCompat =
      some ([mkFrame 1], [0, 0]) ∧
    ([0, 0] : List Nat).length ≠ 1 := by
  decide

/-- Claim C3 (amended): only chain entries whose slot is missing or fails
the compatibility flag are skipped (contributing no frames and no step-map
entry); an empty compatible segment is still included, contributing a
step-map entry and no frames.  The step map's length equals the number of
included (present-and-compatible) segments, and the flattened output is
the concatenation of the included segments' frames. -/
theorem C3_skips_only_incompatible (chain : List Nat)
    (slots : List (Option SequenceSlot)) (fs : List InputFrame) (sm : List Nat)
    (h : buildCombinedSequence chain slots = some (fs, sm)) :
    sm.length = (includedSlots chain slots).length ∧
    fs = ((includedSlots chain slots).map (fun s => s.frames)).flatten := by
  obtain ⟨h1, h2, _⟩ := buildCombinedSequence_some chain slots fs sm h
  refine ⟨?_, h1⟩
  rw [h2, stepOffsets_length, List.length_map]

/-- Claim C3, witness: for compatible A (3 frames), incompatible B,
compatible C (2 frames), the step map is `[0, 3]` of length 2 and the
flattened output is A's frames followed by C's. -/
theorem C3_witness :
    ([0, 3] : List Nat).length = (includedSlots [0, 1, 2] slotsABincC).length ∧
    List.replicate 5 (mkFrame 1) =
      ((includedSlots [0, 1, 2] slotsABincC).map (fun s => s.frames)).flatten :=
  C3_skips_only_incompatible [0, 1, 2] slotsABincC
    (List.replicate 5 (mkFrame 1)) [0, 3] (by decide)

/-- Claim C4: one arbiter cycle sends nothing whenever playback is running
(the interval only exists while `isConnected && !isPlaying`), and while
connected and idle each cycle re-sends the snapshot built from the latest
requested direction and buttons; the cycle period is the fixed 10 ms of
the `setInterval`. -/
theorem C4_manual_input_arbiter (isConnected : Bool) (s : ManualInputState) :
    manualInputCycle isConnected true s = none ∧
    manualInputCycle true false s =
      some (s.povDirection,
        buildManualButtons s.activeButton s.activeTestButton) ∧
    manualInputCadenceMs = 10 := by
  refine ⟨?_, rfl, rfl⟩
  cases isConnected <;> rfl

/-- Claim C5: toggling the invert checkbox only records the flag locally
and issues no backend command, while `playSequence` and `playChain` either
do nothing or transmit the invert flag's current value immediately before
`startPlayback` — so a toggle mid-run cannot affect the in-flight run and
takes effect at the next start. -/
theorem C5_invert_captured_at_start (checked : Bool)
    (slot : Option SequenceSlot) (chain : List Nat)
    (slots : List (Option SequenceSlot)) (inv lp : Bool) :
    handleInvertToggle checked = (checked, []) ∧
    (playSequenceCommands slot inv lp = [] ∨
      ∃ fs, playSequenceCommands slot inv lp =
        [EngineCommand.loadInputSequence fs,
         EngineCommand.setInvertHorizontal inv,
         EngineCommand.setLoopPlayback lp,
         EngineCommand.startPlayback]) ∧
    (playChainCommands chain slots inv lp = [] ∨
      ∃ fs, playChainCommands chain slots inv lp =
        [EngineCommand.loadInputSequence fs,
         EngineCommand.setInvertHorizontal inv,
         EngineCommand.setLoopPlayback lp,
         EngineCommand.startPlayback]) := by
  refine ⟨rfl, ?_, ?_⟩
  · rcases slot with _ | s
    · exact Or.inl rfl
    · by_cases hc : s.compatible
      · exact Or.inr ⟨s.frames, by simp [playSequenceCommands, hc]⟩
      · exact Or.inl (by simp [playSequenceCommands, hc])
  · rcases hb : buildCombinedSequence chain slots with _ | p
    · exact Or.inl (by simp [playChainCommands, hb])
    · exact Or.inr ⟨p.1, by simp [playChainCommands, hb]⟩

/-- Claim C6, counterexample.  With an included empty-compatible segment
the produced step map is `[0, 0]`, which is not strictly increasing, so
the invariant claimed for every chain with at least one included segment
fails on the code. -/
theorem C6_counterexample :
    buildCombinedSequence [0, 1] slotsEmptyCompat =
      some ([mkFrame 1], [0, 0]) ∧
    ¬ ([0, 0] : List Nat).Pairwise (· < ·) := by
  decide

/-- Claim C6 (amended): whenever flattening succeeds the step map is
non-empty, starts at 0, and is non-decreasing; it is strictly increasing
provided every included segment contains at least one frame (which also
follows from the spec's own non-empty-Timeline invariant). -/
theorem C6_step_map_starts_zero_mono (chain : List Nat)
    (slots : List (Option SequenceSlot)) (fs : List InputFrame) (sm : List Nat)
    (h : buildCombinedSequence chain slots = some (fs, sm)) :
    sm ≠ [] ∧ sm.getD 0 0 = 0 ∧ sm.Pairwise (· ≤ ·) ∧
    ((∀ s ∈ includedSlots chain slots, s.frames ≠ []) →
      sm.Pairwise (· < ·)) := by
  obtain ⟨h1, h2, h3⟩ := buildCombinedSequence_some chain slots fs sm h
  have hinc : includedSlots chain slots ≠ [] := by
    intro hnil
    rw [hnil] at h1
    simp at h1
    exact h3 h1
  refine ⟨?_, ?_, ?_, ?_⟩
  · rw [h2]
    intro hnil
    apply hinc
    have hlen : ((includedSlots chain slots).map
        (fun s => s.frames.length)).length = 0 := by
      rw [← stepOffsets_length, hnil]
      rfl
    rw [List.length_map] at hlen
    exact List.length_eq_zero.mp hlen
  · rw [h2]
    exact stepOffsets_getD_zero _
  · rw [h2]
    exact stepOffsets_pairwise_le _
  · intro hall
    rw [h2]
    apply stepOffsets_pairwise_lt
    intro x hx
    simp only [List.mem_map] at hx
    obtain ⟨s, hs, rfl⟩ := hx
    exact List.length_pos.mpr (hall s hs)

/-- Claim C6, witness: for the three 3/5/2-frame compatible segments the
step map `[0, 3, 8]` starts at 0 and is strictly increasing. -/
theorem C6_witness :
    ([0, 3, 8] : List Nat).getD 0 0 = 0 ∧
    ([0, 3, 8] : List Nat).Pairwise (· < ·) := by
  have h := C6_step_map_starts_zero_mono [0, 1, 2] slotsABC
    (List.replicate 10 (mkFrame 1)) [0, 3, 8] (by decide)
  exact ⟨h.2.1, h.2.2.2 (by decide)⟩

/-- Claim C7, counterexample.  Pressing the mapping-test button does not
clear a held primary button and vice versa (the handlers only write their
own slot), so "setting one clears the other" fails; exclusivity comes only
from the send-time priority of the primary slot. -/
theorem C7_counterexample :
    (pressTestButton true (pressMainButton manualState0 3)
        "button5").activeButton = some 3 ∧
    (pressMainButton (pressTestButton true manualState0 "button5")
        3).activeTestButton = some "button5" := by
  decide

/-- Claim C7 (amended): every manual-input snapshot contains at most one
pressed button, drawn from the primary slot if it is set and otherwise
from the test slot (primary priority); setting either slot leaves the
other slot's stored value untouched — exclusivity is enforced per snapshot,
not by clearing. -/
theorem C7_at_most_one_slot (ab : Option Nat) (tb : Option String)
    (s : ManualInputState) (b : Nat) (n : String) :
    (buildManualButtons ab tb).length ≤ 1 ∧
    buildManualButtons (some b) tb = [("button" ++ toString b, 1)] ∧
    buildManualButtons none (some n) = [(n, 1)] ∧
    buildManualButtons none none = [] ∧
    (pressTestButton true s n).activeButton = s.activeButton ∧
    (pressMainButton s b).activeTestButton = s.activeTestButton := by
  refine ⟨?_, rfl, rfl, rfl, rfl, rfl⟩
  cases ab <;> cases tb <;> simp [buildManualButtons]

/-- Claim C8: a delete whose selection covers every remaining row is
rejected and leaves the frame list unchanged (the guard
`frames.length - selectedRows.size < 1` fires), and every delete —
successful or rejected — leaves at least one frame of a non-empty list. -/
theorem C8_delete_keeps_at_least_one (isPlaying : Bool)
    (frames : List InputFrame) (sel : Finset Nat) (hne : frames ≠ []) :
    1 ≤ (deleteSelected isPlaying frames sel).length ∧
    ((∀ i, i < frames.length → i ∈ sel) →
      deleteSelected isPlaying frames sel = frames) := by
  have hlen : 0 < frames.length := List.length_pos.mpr hne
  constructor
  · unfold deleteSelected
    split
    · exact hlen
    split
    · exact hlen
    split
    · exact hlen
    · rename_i hguard
      have h1 := removeSelected_length sel frames 0
      rw [filter_zero_le] at h1
      omega
  · intro hall
    unfold deleteSelected
    split
    · rfl
    split
    · rfl
    split
    · rfl
    · rename_i hcard hguard
      exfalso
      have hsub : Finset.range frames.length ⊆ sel := fun x hx =>
        hall x (Finset.mem_range.mp hx)
      have hr := Finset.card_le_card hsub
      rw [Finset.card_range] at hr
      omega

/-- Claim C8, witness: deleting both rows of a two-row sequence is
rejected and the list keeps its rows. -/
theorem C8_witness :
    1 ≤ (deleteSelected false [mkFrame 1, mkFrame 2]
          ({0, 1} : Finset Nat)).length ∧
    deleteSelected false [mkFrame 1, mkFrame 2] ({0, 1} : Finset Nat) =
      [mkFrame 1, mkFrame 2] := by
  have h := C8_delete_keeps_at_least_one false [mkFrame 1, mkFrame 2]
    ({0, 1} : Finset Nat) (by decide)
  exact ⟨h.1, h.2 (by decide)⟩

/-- Claim C9: while playback is running, adding a row, deleting the
selection and saving are all rejected without touching the frame data. -/
theorem C9_edits_rejected_while_playing (frames : List InputFrame)
    (afterIndex : Option Nat) (sequenceButtons : List String)
    (sel : Finset Nat) (csvPath : String) :
    addRow true frames afterIndex sequenceButtons = frames ∧
    deleteSelected true frames sel = frames ∧
    handleSave true csvPath frames = SaveAction.rejected :=
  ⟨rfl, rfl, rfl⟩

/-- Claim C10: a CSV is marked compatible iff it has at least one button
column and every column is among the available sequence buttons; in
particular a CSV with no button columns is incompatible.  The
MP4-generated-CSV branch applies the same predicate. -/
theorem C10_csv_compatibility (csvButtons availableButtons : List String) :
    (checkCsvCompatibility csvButtons availableButtons = true ↔
      csvButtons ≠ [] ∧ ∀ b ∈ csvButtons, b ∈ availableButtons) ∧
    checkGeneratedCsvCompatibility csvButtons availableButtons =
      checkCsvCompatibility csvButtons availableButtons ∧
    checkCsvCompatibility [] availableButtons = false := by
  refine ⟨?_, rfl, rfl⟩
  unfold checkCsvCompatibility
  simp only [Bool.and_eq_true, beq_iff_eq, List.length_eq_zero,
    decide_eq_true_eq, List.filter_eq_nil_iff, Bool.not_eq_true',
    List.elem_eq_mem, decide_eq_false_iff_not, List.length_pos]
  constructor
  · rintro ⟨h1, h2⟩
    exact ⟨h2, fun b hb => not_not.mp (h1 b hb)⟩
  · rintro ⟨h1, h2⟩
    exact ⟨fun b hb => not_not.mpr (h2 b hb), h1⟩
